import Mathlib

/-!
Verification development for the lum service-supervisor core.

The definitions below are a shallow embedding of the Rust sources:
  - src/service/types.rs        (Status, Priority, OverallStatus, errors)
  - src/event/event.rs          (Event, Subscriber, dispatch)
  - src/event/observable.rs     (Observable, set)
  - src/event/event_repeater.rs (attach / detach bookkeeping)
  - src/service/service_manager.rs (ServiceManager lifecycle operations)
  - src/service/watchdog.rs     (crash-watchdog continuation)

Asynchronous effects are embedded as explicit state passing: the outcome of a
service-supplied fallible operation (start / stop under a timeout, a
subscriber callback accepting a value) is a parameter of the corresponding
transition function, and the mutable state that an operation touches is
threaded through as a value.  Logging is not modelled.
-/

namespace Lum

/-- Lifecycle states of a service, from the Status enum in
src/service/types.rs.  Failure variants carry a human-readable reason. -/
inductive Status where
  | started
  | stopped
  | starting
  | stopping
  | failedToStart (reason : String)
  | failedToStop (reason : String)
  | runtimeError (reason : String)
deriving DecidableEq, Repr

/-- Variant-only equality on Status, mirroring the manual PartialEq impl in
src/service/types.rs lines 46-59: the carried reason string is ignored. -/
def statusEq : Status → Status → Bool
  | .started, .started => true
  | .stopped, .stopped => true
  | .starting, .starting => true
  | .stopping, .stopping => true
  | .failedToStart _, .failedToStart _ => true
  | .failedToStop _, .failedToStop _ => true
  | .runtimeError _, .runtimeError _ => true
  | _, _ => false

/-- Priority enum from src/service/types.rs. -/
inductive Priority where
  | essential
  | optional
deriving DecidableEq, Repr

/-- OverallStatus enum from src/service/types.rs. -/
inductive OverallStatus where
  | healthy
  | unhealthy
deriving DecidableEq, Repr

/-- Callback of a broadcast-event subscriber, from the two callback forms
matched by Event::dispatch in src/event/event.rs (Channel sender and
Closure).  The effect of handing a value to the callback is embedded as a
function to Bool: true means the value was accepted, false means the send or
the closure returned an error. -/
inductive Callback (T : Type) where
  | channel (send : T → Bool)
  | closure (call : T → Bool)

/-- Variant tag of the EventError enum in src/event/event.rs; the payloads
(the unsent value / the boxed error) are not needed by the claims. -/
inductive EventError where
  | channelSend
  | closure
deriving DecidableEq, Repr

/-- Whether the callback accepts the dispatched value. -/
def Callback.accepts {T : Type} : Callback T → T → Bool
  | .channel send, data => send data
  | .closure call, data => call data

/-- Which EventError constructor a failure of this callback produces in
Event::dispatch. -/
def Callback.errKind {T : Type} : Callback T → EventError
  | .channel _ => .channelSend
  | .closure _ => .closure

/-- One broadcast-event subscriber, from the Subscriber fields used by
Event::dispatch in src/event/event.rs: a name, the per-subscriber
remove-on-error policy, and a callback. -/
structure Subscriber (T : Type) where
  name : String
  remove_on_error : Bool
  callback : Callback T

/-- Broadcast event from src/event/event.rs: a name, the log-on-error flag
(logging itself is not modelled) and the ordered subscriber list. -/
structure Event (T : Type) where
  name : String
  log_on_error : Bool
  subscribers : List (Subscriber T)

/-- Body of the for loop of Event::dispatch (src/event/event.rs lines
92-146), mirrored as a recursion over the subscriber list carrying the
running enumeration index.  Returns, in push order, the collected errors,
the collected indices of subscribers to remove, and a trace of the
subscriber names to which delivery of the value was attempted. -/
def dispatchLoop {T : Type} (data : T) :
    List (Subscriber T) → Nat → List EventError × List Nat × List String
  | [], _ => ([], [], [])
  | s :: rest, i =>
      let r := dispatchLoop data rest (i + 1)
      if s.callback.accepts data then
        (r.1, r.2.1, s.name :: r.2.2)
      else
        (s.callback.errKind :: r.1,
         (if s.remove_on_error then i :: r.2.1 else r.2.1),
         s.name :: r.2.2)

/-- Removal pass at the end of Event::dispatch (src/event/event.rs lines
148-150): the collected indices are iterated in reverse and each is removed
from the subscriber vector. -/
def removeIndices {T : Type} (subs : List (Subscriber T)) (rems : List Nat) :
    List (Subscriber T) :=
  rems.reverse.foldl (fun acc i => acc.eraseIdx i) subs

/-- Result of one Event::dispatch call: the event with its post-removal
subscriber list (the mutation of self), the trace of attempted deliveries,
and the returned Result (Ok when no errors were collected, otherwise the
error list). -/
structure DispatchResult (T : Type) where
  event : Event T
  attempted : List String
  result : Except (List EventError) Unit

/-- Event::dispatch from src/event/event.rs lines 85-157. -/
def Event.dispatch {T : Type} (e : Event T) (data : T) : DispatchResult T :=
  let r := dispatchLoop data e.subscribers 0
  { event := { e with subscribers := removeIndices e.subscribers r.2.1 }
    attempted := r.2.2
    result := if r.1.isEmpty then .ok () else .error r.1 }

theorem dispatchLoop_shift {T : Type} (data : T) (subs : List (Subscriber T)) (i : Nat) :
    dispatchLoop data subs (i + 1)
      = ((dispatchLoop data subs i).1,
         (dispatchLoop data subs i).2.1.map (· + 1),
         (dispatchLoop data subs i).2.2) := by
  induction subs generalizing i with
  | nil => simp [dispatchLoop]
  | cons s rest ih =>
    simp only [dispatchLoop, ih (i + 1), ih i]
    by_cases h : s.callback.accepts data
    · simp [h]
    · by_cases hr : s.remove_on_error <;> simp [h, hr]

theorem dispatchLoop_errors {T : Type} (data : T) (subs : List (Subscriber T)) (i : Nat) :
    (dispatchLoop data subs i).1
      = (subs.filter (fun s => !(s.callback.accepts data))).map
          (fun s => s.callback.errKind) := by
  induction subs generalizing i with
  | nil => simp [dispatchLoop]
  | cons s rest ih =>
    simp only [dispatchLoop]
    by_cases h : s.callback.accepts data
    · simp [h, ih (i + 1)]
    · by_cases hr : s.remove_on_error <;> simp [h, hr, ih (i + 1)]

theorem dispatchLoop_attempted {T : Type} (data : T) (subs : List (Subscriber T)) (i : Nat) :
    (dispatchLoop data subs i).2.2 = subs.map (fun s => s.name) := by
  induction subs generalizing i with
  | nil => simp [dispatchLoop]
  | cons s rest ih =>
    simp only [dispatchLoop]
    by_cases h : s.callback.accepts data
    · simp [h, ih (i + 1)]
    · by_cases hr : s.remove_on_error <;> simp [h, hr, ih (i + 1)]

theorem removeIndices_eq_foldr {T : Type} (subs : List (Subscriber T)) (rems : List Nat) :
    removeIndices subs rems = rems.foldr (fun i acc => acc.eraseIdx i) subs := by
  simp [removeIndices, List.foldl_reverse]

theorem foldr_erase_map_succ {T : Type} (s : Subscriber T) (rest : List (Subscriber T))
    (rems : List Nat) :
    (rems.map (· + 1)).foldr (fun i acc => acc.eraseIdx i) (s :: rest)
      = s :: rems.foldr (fun i acc => acc.eraseIdx i) rest := by
  induction rems with
  | nil => rfl
  | cons i is ih => simp [ih, List.eraseIdx]

theorem dispatch_removal_eq_filter {T : Type} (data : T) (subs : List (Subscriber T)) :
    removeIndices subs (dispatchLoop data subs 0).2.1
      = subs.filter (fun s => s.callback.accepts data || !s.remove_on_error) := by
  induction subs with
  | nil => rfl
  | cons s rest ih =>
    rw [removeIndices_eq_foldr] at ih ⊢
    simp only [dispatchLoop, dispatchLoop_shift data rest 0]
    by_cases h : s.callback.accepts data
    · simp only [h, if_true]
      rw [foldr_erase_map_succ, ih]
      simp [h]
    · by_cases hr : s.remove_on_error
      · simp only [h, hr, Bool.false_eq_true, if_false, if_true, List.foldr_cons]
        rw [foldr_erase_map_succ]
        simp only [List.eraseIdx]
        rw [ih]
        simp [h, hr]
      · simp only [h, hr, Bool.false_eq_true, if_false]
        rw [foldr_erase_map_succ, ih]
        simp [h, hr]

/-- Error list carried by a dispatch result; empty when the result is Ok. -/
def DispatchResult.errors {T : Type} (r : DispatchResult T) : List EventError :=
  match r.result with
  | .ok _ => []
  | .error es => es

/-- C4: Event::dispatch attempts delivery of the one dispatched value to
every current subscriber in registration order even when some subscriber
fails (the attempted trace always lists all subscribers in order); the
returned error list has exactly one entry per failing subscriber, in order,
and the call returns Ok exactly when no subscriber fails; after the
dispatch, exactly the subscribers that failed and have remove_on_error set
are removed, while all other subscribers remain registered. -/
theorem c4_dispatch_error_isolation {T : Type} (e : Event T) (data : T) :
    ((e.dispatch data).attempted = e.subscribers.map (fun s => s.name))
    ∧ ((e.dispatch data).errors
        = (e.subscribers.filter (fun s => !(s.callback.accepts data))).map
            (fun s => s.callback.errKind))
    ∧ ((e.dispatch data).result = .ok ()
        ↔ e.subscribers.all (fun s => s.callback.accepts data) = true)
    ∧ ((e.dispatch data).event.subscribers
        = e.subscribers.filter
            (fun s => s.callback.accepts data || !s.remove_on_error)) := by
  refine ⟨?_, ?_, ?_, ?_⟩
  · simp [Event.dispatch, dispatchLoop_attempted]
  · have key : (e.dispatch data).errors = (dispatchLoop data e.subscribers 0).1 := by
      by_cases hε : (dispatchLoop data e.subscribers 0).1.isEmpty
      · simp [Event.dispatch, DispatchResult.errors, hε, List.isEmpty_iff.mp hε]
      · simp [Event.dispatch, DispatchResult.errors, hε]
    rw [key, dispatchLoop_errors]
  · by_cases hε : (dispatchLoop data e.subscribers 0).1.isEmpty
    · have h0 : (dispatchLoop data e.subscribers 0).1 = [] :=
        List.isEmpty_iff.mp hε
      rw [dispatchLoop_errors data e.subscribers 0] at h0
      simp only [List.map_eq_nil_iff, List.filter_eq_nil_iff] at h0
      simp only [Event.dispatch, hε, if_true, List.all_eq_true]
      constructor
      · intro _ s hs
        by_contra hna
        exact (h0 s hs) (by simpa using hna)
      · intro _
        trivial
    · have h0 : (dispatchLoop data e.subscribers 0).1 ≠ [] := by
        intro hc
        rw [hc] at hε
        simp at hε
      rw [dispatchLoop_errors data e.subscribers 0] at h0
      simp only [ne_eq, List.map_eq_nil_iff, List.filter_eq_nil_iff, not_forall] at h0
      obtain ⟨s, hs, hfail⟩ := h0
      simp only [Event.dispatch, hε, if_false, List.all_eq_true]
      constructor
      · intro hc
        simp at hc
      · intro hall
        exact absurd (hall s hs) (by simpa using hfail)
  · simp [Event.dispatch, dispatch_removal_eq_filter]

/-- ObservableResult from src/event/observable.rs: Unchanged, or Changed
carrying the dispatch result. -/
inductive ObservableResult where
  | unchanged
  | changed (r : Except (List EventError) Unit)

/-- Observable from src/event/observable.rs: a current value paired with a
private on-change broadcast event. -/
structure Observable (T : Type) where
  value : T
  onChange : Event T

/-- Outcome of one Observable::set call: the observable after the call, the
returned ObservableResult, and a trace counting how many times
Event::dispatch was invoked during the call (the source calls it at most
once). -/
structure SetOutcome (T : Type) where
  obs : Observable T
  result : ObservableResult
  dispatches : Nat

/-- Observable::set from src/event/observable.rs lines 44-61.  The eq
argument stands for the PartialEq implementation of the value type (for
Status this is statusEq, which ignores reason strings).  If the new value
equals the current one the call returns Unchanged and performs no dispatch;
otherwise it stores the new value, then dispatches it on the on-change
event and returns Changed with the dispatch result. -/
def Observable.set {T : Type} (eq : T → T → Bool) (o : Observable T) (v : T) :
    SetOutcome T :=
  if eq o.value v then
    ⟨o, .unchanged, 0⟩
  else
    let d := o.onChange.dispatch v
    ⟨{ value := v, onChange := d.event }, .changed d.result, 1⟩

/-- C5 (amended): Observable::set compares the new value to the current
one — on equality it returns Unchanged, performs no dispatch and leaves the
stored value as is; otherwise it stores the new value, dispatches it once
and returns Changed with the dispatch result.  Consequently two consecutive
set calls with equal arguments dispatch at most once — exactly once
precisely when the first call changes the stored value — and the second
call returns Unchanged (given that equality is reflexive at the argument,
as it is for statusEq and every well-behaved PartialEq). -/
theorem c5_set_change_gate {T : Type} (eq : T → T → Bool) (o : Observable T)
    (v : T) (hrefl : eq v v = true) :
    (eq o.value v = true → o.set eq v = ⟨o, .unchanged, 0⟩)
    ∧ (eq o.value v = false →
        (o.set eq v).obs.value = v
        ∧ (o.set eq v).result = .changed (o.onChange.dispatch v).result
        ∧ (o.set eq v).dispatches = 1)
    ∧ (((o.set eq v).obs.set eq v).result = .unchanged
        ∧ ((o.set eq v).obs.set eq v).dispatches = 0
        ∧ (o.set eq v).dispatches + ((o.set eq v).obs.set eq v).dispatches
            = (if eq o.value v then 0 else 1)) := by
  by_cases h : eq o.value v
  · refine ⟨fun _ => by simp [Observable.set, h], fun hc => by simp [h] at hc, ?_⟩
    simp [Observable.set, h]
  · have hf : eq o.value v = false := by simpa using h
    refine ⟨fun hc => by simp [hf] at hc, fun _ => ?_, ?_⟩
    · refine ⟨?_, ?_, ?_⟩ <;> simp [Observable.set, hf]
    · have hobs : (o.set eq v).obs.value = v := by simp [Observable.set, hf]
      refine ⟨?_, ?_, ?_⟩ <;>
        simp [Observable.set, hf, hobs, hrefl]

/-- C5 witness: the amended theorem applied to a concrete Nat observable
holding 0, with v = 1. -/
theorem c5_set_change_gate_witness :
    ((fun a b : Nat => a == b) 1 1 = true)
    ∧ ((Observable.mk 0 ⟨"obs", true, []⟩ : Observable Nat).set
          (fun a b => a == b) 1).dispatches = 1 := by
  refine ⟨by decide, ?_⟩
  exact ((c5_set_change_gate (fun a b : Nat => a == b)
    ⟨0, ⟨"obs", true, []⟩⟩ 1 (by decide)).2.1 (by decide)).2.2

/-- C5 counterexample: the claim as stated asserts that two consecutive set
calls with equal arguments dispatch exactly once; on an observable whose
current value already equals the argument, both calls return Unchanged and
the pair of calls dispatches zero times. -/
theorem c5_counterexample :
    (((Observable.mk 0 ⟨"obs", true, []⟩ : Observable Nat).set
        (fun a b => a == b) 0).dispatches
      + ((((Observable.mk 0 ⟨"obs", true, []⟩ : Observable Nat).set
          (fun a b => a == b) 0)).obs.set (fun a b => a == b) 0).dispatches
      = 0)
    ∧ ¬ ((((Observable.mk 0 ⟨"obs", true, []⟩ : Observable Nat).set
        (fun a b => a == b) 0).dispatches
      + ((((Observable.mk 0 ⟨"obs", true, []⟩ : Observable Nat).set
          (fun a b => a == b) 0)).obs.set (fun a b => a == b) 0).dispatches
      = 1)) := by
  constructor <;> simp [Observable.set]

/-- C9: equality on Status compares only the variant and ignores the
carried reason string — FailedToStart, FailedToStop and RuntimeError values
are equal for any pair of reasons — and consequently a status observable
currently holding a failure variant, set with the same variant but a
different reason string, returns Unchanged and dispatches no change
event (the stored observable is untouched). -/
theorem c9_status_eq_ignores_reason (a b : String) (o : Observable Status)
    (r1 r2 : String) (_hne : r1 ≠ r2) :
    (statusEq (.failedToStart a) (.failedToStart b) = true)
    ∧ (statusEq (.failedToStop a) (.failedToStop b) = true)
    ∧ (statusEq (.runtimeError a) (.runtimeError b) = true)
    ∧ (o.value = .failedToStart r1 →
        o.set statusEq (.failedToStart r2) = ⟨o, .unchanged, 0⟩)
    ∧ (o.value = .failedToStop r1 →
        o.set statusEq (.failedToStop r2) = ⟨o, .unchanged, 0⟩)
    ∧ (o.value = .runtimeError r1 →
        o.set statusEq (.runtimeError r2) = ⟨o, .unchanged, 0⟩) := by
  refine ⟨rfl, rfl, rfl, ?_, ?_, ?_⟩ <;>
    · intro hval
      simp [Observable.set, hval, statusEq]

/-- C9 witness: the theorem applied to a concrete status observable holding
RuntimeError "a", set to RuntimeError "b". -/
theorem c9_status_eq_ignores_reason_witness :
    (statusEq (.failedToStart "x") (.failedToStart "y") = true)
    ∧ (Observable.mk (Status.runtimeError "a") ⟨"status", true, []⟩).set
        statusEq (.runtimeError "b")
      = ⟨⟨Status.runtimeError "a", ⟨"status", true, []⟩⟩, .unchanged, 0⟩ :=
  ⟨(c9_status_eq_ignores_reason "x" "y"
      ⟨Status.runtimeError "a", ⟨"status", true, []⟩⟩ "a" "b" (by decide)).1,
   (c9_status_eq_ignores_reason "x" "y"
      ⟨Status.runtimeError "a", ⟨"status", true, []⟩⟩ "a" "b"
      (by decide)).2.2.2.2.2 rfl⟩

/-- StartupError enum from src/service/types.rs lines 93-111; the ids are
kept, the nested error payloads (attach error details) are not needed by
the claims. -/
inductive StartupError where
  | serviceNotManaged (id : String)
  | serviceNotStopped (id : String)
  | backgroundTaskAlreadyRunning (id : String)
  | statusAttachmentFailed (id : String)
  | failedToStartService (id : String)
deriving DecidableEq, Repr

/-- ShutdownError enum from src/service/types.rs lines 113-128. -/
inductive ShutdownError where
  | serviceNotManaged (id : String)
  | serviceNotStarted (id : String)
  | failedToStopService (id : String)
  | statusDetachmentFailed (id : String)
deriving DecidableEq, Repr

/-- Per-service state as the ServiceManager sees it: the immutable identity
fields of ServiceInfo (src/service/service.rs), the current value of the
status observable, whether Service::task() returns Some (hasTask), and the
concrete Rust type of the implementation (tyTag), which stands for the type
T probed by the as_any().is::<T>() downcast in get_service. -/
structure ServiceState where
  id : String
  name : String
  priority : Priority
  status : Status
  hasTask : Bool
  tyTag : String
deriving DecidableEq, Repr

/-- State owned by ServiceManager (src/service/service_manager.rs lines
82-88): the ordered registry, the key set of the background_tasks HashMap
(the JoinHandle values carry no further state relevant to the claims), and
the key set of the on_status_change EventRepeater's subscriptions table.
The repeater keys are event identities; since every service owns exactly
one status observable, they are represented by the owning service's id. -/
structure ManagerState where
  services : List ServiceState
  backgroundTasks : List String
  attached : List String
deriving DecidableEq, Repr

/-- The matches!(status, Status::Stopped) test of start_service. -/
def isStopped : Status → Bool
  | .stopped => true
  | _ => false

/-- The matches!(status, Status::Started) test of stop_service. -/
def isStarted : Status → Bool
  | .started => true
  | _ => false

/-- Stored value of a status observable after Observable::set: set is gated
by the PartialEq of Status (statusEq), so the stored value is unchanged
when the variants are equal and is the new status otherwise. -/
def obsSetStatus (cur new : Status) : Status :=
  if statusEq cur new then cur else new

/-- ServiceManager::manages_service (src/service/service_manager.rs lines
95-105): linear scan of the registry for the id. -/
def managesService (m : ManagerState) (sid : String) : Bool :=
  m.services.any (fun s => s.id == sid)

/-- First registered service with the given id (the registry entry the
lifecycle operations lock and mutate). -/
def findService (m : ManagerState) (sid : String) : Option ServiceState :=
  m.services.find? (fun s => s.id == sid)

/-- Effect on the manager state of service.info().status.set(st) for the
service with the given id. -/
def setStatus (m : ManagerState) (sid : String) (st : Status) : ManagerState :=
  { m with
    services := m.services.map
      (fun s => if s.id == sid then { s with status := obsSetStatus s.status st } else s) }

/-- Current status of the service with the given id. -/
def getStatus (m : ManagerState) (sid : String) : Option Status :=
  (findService m sid).map (fun s => s.status)

/-- ServiceManager::start_service (src/service/service_manager.rs lines
107-146) together with init_service (lines 336-393) and
start_background_task (lines 439-502).  The initOutcome argument is the
embedded outcome of timeout(10s, service.start(arc)): ok for a successful
start, error e when the service returned an error with text e or the
timeout elapsed (the source folds both into the same
FailedToStart/FailedToStartService shape).  The attach step fails exactly
when the service's status event is already attached (AlreadyAttached); the
NotInitialized attach error cannot occur for a manager coming out of
ServiceManagerBuilder::build and is not modelled. -/
def startService (m : ManagerState) (sid : String)
    (initOutcome : Except String Unit) :
    ManagerState × Except StartupError Unit :=
  if ¬ managesService m sid then (m, .error (.serviceNotManaged sid))
  else
    match findService m sid with
    | none => (m, .error (.serviceNotManaged sid))
    | some s =>
      if ¬ isStopped s.status then (m, .error (.serviceNotStopped sid))
      else if m.backgroundTasks.contains sid then
        (m, .error (.backgroundTaskAlreadyRunning sid))
      else if m.attached.contains sid then
        (m, .error (.statusAttachmentFailed sid))
      else
        let m1 := setStatus { m with attached := sid :: m.attached } sid .starting
        match initOutcome with
        | .error e =>
            (setStatus m1 sid (.failedToStart e), .error (.failedToStartService sid))
        | .ok _ =>
            let m2 := setStatus m1 sid .started
            (if m2.backgroundTasks.contains sid then m2
             else if s.hasTask then
               { m2 with backgroundTasks := sid :: m2.backgroundTasks }
             else m2,
             .ok ())

/-- ServiceManager::stop_service (src/service/service_manager.rs lines
149-183) together with shutdown_service (lines 395-432) and
stop_background_task (lines 504-516).  The stopOutcome argument is the
embedded outcome of timeout(10s, service.stop()), folding a returned error
and a timeout into one error text as the source does.  Note the source
detaches the status event only after a successful shutdown: the
FailedToStopService path returns before the detach. -/
def stopService (m : ManagerState) (sid : String)
    (stopOutcome : Except String Unit) :
    ManagerState × Except ShutdownError Unit :=
  if ¬ managesService m sid then (m, .error (.serviceNotManaged sid))
  else
    match findService m sid with
    | none => (m, .error (.serviceNotManaged sid))
    | some s =>
      if ¬ isStarted s.status then (m, .error (.serviceNotStarted sid))
      else
        let m1 := { m with backgroundTasks :=
          if m.backgroundTasks.contains sid then m.backgroundTasks.erase sid
          else m.backgroundTasks }
        let m2 := setStatus m1 sid .stopping
        match stopOutcome with
        | .error e =>
            (setStatus m2 sid (.failedToStop e), .error (.failedToStopService sid))
        | .ok _ =>
            let m3 := setStatus m2 sid .stopped
            if m3.attached.contains sid then
              ({ m3 with attached := m3.attached.erase sid }, .ok ())
            else
              (m3, .error (.statusDetachmentFailed sid))

/-- Crash-watchdog continuation appended in start_background_task
(src/service/service_manager.rs lines 455-493) and driven by Watchdog::run
(src/service/watchdog.rs lines 45-58): when the service-supplied background
task resolves, the continuation sets the service status to RuntimeError —
reason "Background task ended unexpectedly!" when the task returned Ok, and
"Background task ended with error: " followed by the error text when it
returned Err.  Nothing else is touched: in particular the manager's
background-task table keeps its entry for the service. -/
def watchdogResolve (m : ManagerState) (sid : String)
    (result : Except String Unit) : ManagerState :=
  match result with
  | .ok _ => setStatus m sid (.runtimeError "Background task ended unexpectedly!")
  | .error e =>
      setStatus m sid (.runtimeError ("Background task ended with error: " ++ e))

/-- Loop of ServiceManager::overall_status (src/service/service_manager.rs
lines 239-254): non-Essential services are skipped; the first Essential
service whose status is not Started (by the variant-only PartialEq) makes
the result Unhealthy; otherwise the result is Healthy. -/
def overallStatusList : List ServiceState → OverallStatus
  | [] => .healthy
  | s :: rest =>
      if s.priority ≠ Priority.essential then overallStatusList rest
      else if ¬ statusEq s.status .started then .unhealthy
      else overallStatusList rest

/-- ServiceManager::overall_status. -/
def overallStatus (m : ManagerState) : OverallStatus :=
  overallStatusList m.services

/-- ServiceManager::get_service (src/service/service_manager.rs lines
211-236): linear scan returning the first registered service whose
concrete type matches the requested one, none when no service matches. -/
def getService (m : ManagerState) (tag : String) : Option ServiceState :=
  m.services.find? (fun s => s.tyTag == tag)

/-- ServiceManagerBuilder::with_service (src/service/service_manager.rs
lines 34-59): a service whose id collides with an already accepted one is
dropped — a warning is logged, the builder is returned unchanged, and the
function has no error channel — otherwise the service is appended. -/
def withService (services : List ServiceState) (s : ServiceState) :
    List ServiceState :=
  if services.any (fun r => r.id == s.id) then services else services ++ [s]

/-- ServiceManagerBuilder::build (src/service/service_manager.rs lines
61-79): the registry is the accepted list; the background-task table and
the repeater's attachment table start empty. -/
def buildManager (services : List ServiceState) : ManagerState :=
  { services := services, backgroundTasks := [], attached := [] }

theorem manages_of_find (m : ManagerState) (sid : String) (s : ServiceState)
    (h : findService m sid = some s) : managesService m sid = true := by
  have hp := List.find?_some h
  have hmem := List.mem_of_find?_eq_some h
  simp only [managesService, List.any_eq_true]
  exact ⟨s, hmem, hp⟩

theorem find_id_of_findService (m : ManagerState) (sid : String) (s : ServiceState)
    (hfind : findService m sid = some s) : s.id = sid := by
  simp only [findService] at hfind
  have h2 := List.find?_some hfind
  simpa using h2

theorem mem_of_findService (m : ManagerState) (sid : String) (s : ServiceState)
    (hfind : findService m sid = some s) : s ∈ m.services := by
  simp only [findService] at hfind
  exact List.mem_of_find?_eq_some hfind

theorem findService_setStatus (m : ManagerState) (sid tid : String) (st : Status) :
    findService (setStatus m sid st) tid
      = (findService m tid).map
          (fun s => if s.id == sid then
              { s with status := obsSetStatus s.status st } else s) := by
  simp only [findService, setStatus]
  rw [List.find?_map]
  have hpred : ((fun s : ServiceState => s.id == tid) ∘ fun s =>
      if s.id == sid then { s with status := obsSetStatus s.status st } else s)
      = fun s : ServiceState => s.id == tid := by
    funext s
    by_cases h : (s.id == sid) = true <;> simp [h, Function.comp]
  rw [hpred]

theorem getStatus_setStatus_self (m : ManagerState) (sid : String) (st : Status)
    (s : ServiceState) (hfind : findService m sid = some s) :
    getStatus (setStatus m sid st) sid = some (obsSetStatus s.status st) := by
  have hp := find_id_of_findService m sid s hfind
  simp [getStatus, findService_setStatus, hfind, hp]

theorem findService_setStatus_self (m : ManagerState) (sid : String) (st : Status)
    (s : ServiceState) (hfind : findService m sid = some s) :
    findService (setStatus m sid st) sid
      = some { s with status := obsSetStatus s.status st } := by
  have hp := find_id_of_findService m sid s hfind
  simp [findService_setStatus, hfind, hp]

theorem findService_setStatus_ne (m : ManagerState) (sid tid : String) (st : Status)
    (hne : tid ≠ sid) :
    findService (setStatus m sid st) tid = findService m tid := by
  rw [findService_setStatus]
  cases hf : findService m tid with
  | none => rfl
  | some s =>
    have hp := find_id_of_findService m tid s hf
    have hne2 : ¬ s.id = sid := by
      rw [hp]
      simpa using hne
    simp [hne2]

/-- C1: for a managed service, start_service requires the Stopped state and
stop_service requires the Started state; when the service is not in the
required source state the call returns the corresponding precondition error
(ServiceNotStopped / ServiceNotStarted) and the whole manager state — in
particular the service's status — is left exactly as it was before the
call. -/
theorem c1_lifecycle_preconditions (m : ManagerState) (sid : String)
    (s : ServiceState) (hfind : findService m sid = some s)
    (outS outT : Except String Unit) :
    (isStopped s.status = false →
        startService m sid outS = (m, .error (.serviceNotStopped sid)))
    ∧ (isStarted s.status = false →
        stopService m sid outT = (m, .error (.serviceNotStarted sid))) := by
  have hman := manages_of_find m sid s hfind
  constructor
  · intro hns
    simp [startService, hman, hfind, hns]
  · intro hns
    simp [stopService, hman, hfind, hns]

/-- C1 witness: a registered service currently in the Starting state is
neither Stopped nor Started, so both lifecycle calls reject it and leave
the manager untouched. -/
theorem c1_lifecycle_preconditions_witness :
    startService (buildManager [⟨"s1", "S1", .optional, .starting, false, "T1"⟩])
        "s1" (.ok ())
      = (buildManager [⟨"s1", "S1", .optional, .starting, false, "T1"⟩],
         .error (.serviceNotStopped "s1"))
    ∧ stopService (buildManager [⟨"s1", "S1", .optional, .starting, false, "T1"⟩])
        "s1" (.ok ())
      = (buildManager [⟨"s1", "S1", .optional, .starting, false, "T1"⟩],
         .error (.serviceNotStarted "s1")) :=
  ⟨(c1_lifecycle_preconditions
      (buildManager [⟨"s1", "S1", .optional, .starting, false, "T1"⟩]) "s1"
      ⟨"s1", "S1", .optional, .starting, false, "T1"⟩
      rfl (.ok ()) (.ok ())).1 rfl,
   (c1_lifecycle_preconditions
      (buildManager [⟨"s1", "S1", .optional, .starting, false, "T1"⟩]) "s1"
      ⟨"s1", "S1", .optional, .starting, false, "T1"⟩
      rfl (.ok ()) (.ok ())).2 rfl⟩

theorem statusEq_started_iff (st : Status) :
    statusEq st .started = true ↔ st = .started := by
  cases st <;> simp [statusEq]

theorem overallStatusList_healthy_iff (l : List ServiceState) :
    overallStatusList l = .healthy
      ↔ ∀ s ∈ l, s.priority = .essential → s.status = .started := by
  induction l with
  | nil => simp [overallStatusList]
  | cons s rest ih =>
    by_cases hp : s.priority = Priority.essential
    · by_cases hs : statusEq s.status .started = true
      · have hst := (statusEq_started_iff s.status).mp hs
        simp [overallStatusList, hp, hs, ih, hst, statusEq]
      · have hns : ¬ s.status = .started := fun hc =>
          hs ((statusEq_started_iff s.status).mpr hc)
        rw [show overallStatusList (s :: rest) = .unhealthy from by
          simp [overallStatusList, hp, hs]]
        constructor
        · intro hc
          exact absurd hc (by decide)
        · intro hall
          exact absurd (hall s (List.mem_cons_self s rest) hp) hns
    · simp [overallStatusList, hp, ih]

theorem overallStatusList_filter_essential (l : List ServiceState) :
    overallStatusList (l.filter (fun s => s.priority == Priority.essential))
      = overallStatusList l := by
  induction l with
  | nil => rfl
  | cons s rest ih =>
    by_cases hp : s.priority = Priority.essential
    · by_cases hs : statusEq s.status .started = true <;>
        simp [overallStatusList, List.filter_cons, hp, hs, ih]
    · simp [overallStatusList, List.filter_cons, hp, ih]

/-- C3: overall_status() is Healthy if and only if every registered service
with priority Essential has status Started; the result is a function of the
Essential services alone, so the statuses of Optional services never affect
it. -/
theorem c3_overall_status_essential_only (m : ManagerState) :
    (overallStatus m = .healthy
      ↔ ∀ s ∈ m.services, s.priority = .essential → s.status = .started)
    ∧ overallStatusList
        (m.services.filter (fun s => s.priority == Priority.essential))
      = overallStatus m :=
  ⟨overallStatusList_healthy_iff m.services,
   overallStatusList_filter_essential m.services⟩

theorem overallStatusList_unhealthy_of_failed (l : List ServiceState)
    (s : ServiceState) (hmem : s ∈ l) (hp : s.priority = .essential)
    (hs : s.status ≠ .started) :
    overallStatusList l = .unhealthy := by
  cases hres : overallStatusList l with
  | healthy => exact absurd ((overallStatusList_healthy_iff l).mp hres s hmem hp) hs
  | unhealthy => rfl

/-- C2 (amended): when the crash watchdog of a Started service with a
declared background task fires — i.e. the background task resolves with no
prior direct stop call — the service's status is set to RuntimeError whose
reason is "Background task ended unexpectedly!" when the task resolved
successfully and "Background task ended with error: " followed by the
underlying error text when it resolved with an error (the reason embeds,
but is not equal to, the underlying error text); if the service is
Essential, overall_status() afterwards returns Unhealthy. -/
theorem c2_watchdog_sets_runtime_error (m : ManagerState) (sid : String)
    (s : ServiceState) (hfind : findService m sid = some s)
    (hstarted : s.status = .started) :
    (getStatus (watchdogResolve m sid (.ok ())) sid
        = some (.runtimeError "Background task ended unexpectedly!"))
    ∧ (∀ e, getStatus (watchdogResolve m sid (.error e)) sid
        = some (.runtimeError ("Background task ended with error: " ++ e)))
    ∧ (s.priority = .essential →
        ∀ r, overallStatus (watchdogResolve m sid r) = .unhealthy) := by
  refine ⟨?_, ?_, ?_⟩
  · rw [watchdogResolve, getStatus_setStatus_self m sid _ s hfind, hstarted]
    rfl
  · intro e
    rw [watchdogResolve, getStatus_setStatus_self m sid _ s hfind, hstarted]
    rfl
  · intro hp r
    have hid := find_id_of_findService m sid s hfind
    have hmem := mem_of_findService m sid s hfind
    have key : ∀ ρ, overallStatus (setStatus m sid (.runtimeError ρ)) = .unhealthy := by
      intro ρ
      have hmem2 : { s with status := Status.runtimeError ρ }
          ∈ (setStatus m sid (.runtimeError ρ)).services := by
        have hm := List.mem_map_of_mem
          (fun x : ServiceState => if x.id == sid then
            { x with status := obsSetStatus x.status (.runtimeError ρ) } else x) hmem
        simpa [setStatus, hid, hstarted, obsSetStatus, statusEq] using hm
      exact overallStatusList_unhealthy_of_failed _ _ hmem2 hp (by simp)
    cases r with
    | ok _ => exact key _
    | error e => exact key _

/-- Manager used by the C2 and C6 scenarios: one Essential service with a
declared background task, registered and started, its status event attached
and its background task recorded. -/
def mgr2 : ManagerState :=
  { services := [⟨"svc", "Svc", .essential, .started, true, "TSvc"⟩]
    backgroundTasks := ["svc"]
    attached := ["svc"] }

/-- C2 counterexample: the claim as stated says that on failure the
RuntimeError reason is the underlying error text; for a Started essential
service whose background task resolves with error text "boom", the code
stores the reason "Background task ended with error: boom", which differs
from "boom". -/
theorem c2_counterexample :
    getStatus (watchdogResolve mgr2 "svc" (.error "boom")) "svc"
      = some (.runtimeError "Background task ended with error: boom")
    ∧ getStatus (watchdogResolve mgr2 "svc" (.error "boom")) "svc"
      ≠ some (.runtimeError "boom") := by
  refine ⟨by decide, by decide⟩

/-- C2 witness: the amended theorem applied to the concrete one-service
manager, on the success branch of the background task. -/
theorem c2_watchdog_sets_runtime_error_witness :
    getStatus (watchdogResolve mgr2 "svc" (.ok ())) "svc"
      = some (.runtimeError "Background task ended unexpectedly!")
    ∧ overallStatus (watchdogResolve mgr2 "svc" (.ok ())) = .unhealthy :=
  ⟨(c2_watchdog_sets_runtime_error mgr2 "svc"
      ⟨"svc", "Svc", .essential, .started, true, "TSvc"⟩ rfl rfl).1,
   (c2_watchdog_sets_runtime_error mgr2 "svc"
      ⟨"svc", "Svc", .essential, .started, true, "TSvc"⟩ rfl rfl).2.2 rfl (.ok ())⟩

theorem find?_eq_head_filter (l : List ServiceState) (tag : String) :
    l.find? (fun s => s.tyTag == tag)
      = (l.filter (fun s => s.tyTag == tag)).head? := by
  induction l with
  | nil => rfl
  | cons s rest ih =>
    by_cases h : (s.tyTag == tag) = true
    · rw [@List.find?_cons_of_pos ServiceState (fun s => s.tyTag == tag) s rest h,
        @List.filter_cons_of_pos ServiceState (fun s => s.tyTag == tag) s rest h]
      rfl
    · rw [@List.find?_cons_of_neg ServiceState (fun s => s.tyTag == tag) s rest h,
        @List.filter_cons_of_neg ServiceState (fun s => s.tyTag == tag) s rest h]
      exact ih

/-- C7 (amended): get_service returns the first registered service whose
concrete type matches the requested one — in particular the single
registered one when exactly one match exists — and none exactly when no
registered service matches; with more than one match it still returns the
first match in registration order rather than none or an error. -/
theorem c7_get_service_first_match (m : ManagerState) (tag : String) :
    getService m tag = (m.services.filter (fun s => s.tyTag == tag)).head?
    ∧ (getService m tag = none ↔ ∀ s ∈ m.services, ¬ s.tyTag = tag) := by
  refine ⟨find?_eq_head_filter m.services tag, ?_⟩
  simp [getService, List.find?_eq_none]

/-- Registry used by the C7 counterexample: two distinct registered
services sharing the concrete type TDup. -/
def mgr7 : ManagerState :=
  buildManager [⟨"a", "A", .optional, .stopped, false, "TDup"⟩,
                ⟨"b", "B", .optional, .stopped, false, "TDup"⟩]

/-- C7 counterexample: the claim as stated says get_service returns none or
an error when more than one registered service matches; with two services
of concrete type TDup the code returns the first of them. -/
theorem c7_counterexample :
    (mgr7.services.filter (fun s => s.tyTag == "TDup")).length = 2
    ∧ getService mgr7 "TDup"
        = some ⟨"a", "A", .optional, .stopped, false, "TDup"⟩
    ∧ getService mgr7 "TDup" ≠ none := by
  refine ⟨by decide, by decide, by decide⟩

theorem withService_preserves_distinct (l : List ServiceState) (s : ServiceState)
    (h : l.Pairwise (fun a b => a.id ≠ b.id)) :
    (withService l s).Pairwise (fun a b => a.id ≠ b.id) := by
  by_cases hdup : l.any (fun r => r.id == s.id) = true
  · simpa [withService, hdup] using h
  · have hall : ∀ r ∈ l, r.id ≠ s.id := by
      simp only [List.any_eq_true, beq_iff_eq, not_exists] at hdup
      intro r hr
      simp only [not_and] at hdup
      exact hdup r hr
    rw [withService, if_neg (by simpa using hdup)]
    rw [List.pairwise_append]
    refine ⟨h, List.pairwise_singleton _ _, ?_⟩
    intro a ha b hb
    have : b = s := by simpa using hb
    subst this
    exact hall a ha

theorem foldl_withService_distinct (regs acc : List ServiceState)
    (h : acc.Pairwise (fun a b => a.id ≠ b.id)) :
    (regs.foldl withService acc).Pairwise (fun a b => a.id ≠ b.id) := by
  induction regs generalizing acc with
  | nil => simpa using h
  | cons s rest ih => exact ih _ (withService_preserves_distinct acc s h)

/-- C8: registering a service whose id equals that of an already accepted
service leaves the builder unchanged — the earlier service with that id is
kept, and no error is raised or returned (with_service has no error
channel; the source only logs a warning) — a service with a fresh id is
appended, and consequently any sequence of registrations starting from the
empty builder yields a built registry with pairwise-distinct service
ids. -/
theorem c8_builder_unique_ids (l : List ServiceState) (s : ServiceState)
    (regs : List ServiceState) :
    ((∃ r ∈ l, r.id = s.id) → withService l s = l)
    ∧ ((∀ r ∈ l, r.id ≠ s.id) → withService l s = l ++ [s])
    ∧ (buildManager (regs.foldl withService [])).services.Pairwise
        (fun a b => a.id ≠ b.id) := by
  refine ⟨?_, ?_, ?_⟩
  · intro hdup
    obtain ⟨r, hr, hid⟩ := hdup
    have hany : l.any (fun r => r.id == s.id) = true := by
      simp only [List.any_eq_true, beq_iff_eq]
      exact ⟨r, hr, hid⟩
    simp [withService, hany]
  · intro hall
    have hany : ¬ l.any (fun r => r.id == s.id) = true := by
      simp only [List.any_eq_true, beq_iff_eq, not_exists, not_and]
      exact hall
    simp [withService, hany]
  · exact foldl_withService_distinct regs [] (by simp)

/-- C8 witness: a second registration with the already used id "a" is
dropped and the first service kept; folding both registrations from the
empty builder yields a registry with distinct ids. -/
theorem c8_builder_unique_ids_witness :
    withService [⟨"a", "A", .optional, .stopped, false, "T1"⟩]
        ⟨"a", "A2", .essential, .stopped, false, "T2"⟩
      = [⟨"a", "A", .optional, .stopped, false, "T1"⟩]
    ∧ (buildManager ([⟨"a", "A", .optional, .stopped, false, "T1"⟩,
          ⟨"a", "A2", .essential, .stopped, false, "T2"⟩].foldl
            withService [])).services.Pairwise (fun a b => a.id ≠ b.id) :=
  ⟨(c8_builder_unique_ids [⟨"a", "A", .optional, .stopped, false, "T1"⟩]
      ⟨"a", "A2", .essential, .stopped, false, "T2"⟩ []).1
      ⟨⟨"a", "A", .optional, .stopped, false, "T1"⟩, by decide, rfl⟩,
   (c8_builder_unique_ids [⟨"a", "A", .optional, .stopped, false, "T1"⟩]
      ⟨"a", "A2", .essential, .stopped, false, "T2"⟩
      [⟨"a", "A", .optional, .stopped, false, "T1"⟩,
       ⟨"a", "A2", .essential, .stopped, false, "T2"⟩]).2.2⟩

theorem isStopped_iff (st : Status) : isStopped st = true ↔ st = .stopped := by
  cases st <;> simp [isStopped]

theorem isStarted_iff (st : Status) : isStarted st = true ↔ st = .started := by
  cases st <;> simp [isStarted]

theorem stopService_attached (m : ManagerState) (sid : String)
    (out : Except String Unit) :
    (stopService m sid out).2 = .ok ()
    ∨ (stopService m sid out).1.attached = m.attached := by
  by_cases h1 : managesService m sid = true
  · cases hf : findService m sid with
    | none => right; simp [stopService, h1, hf]
    | some s =>
      by_cases h2 : isStarted s.status = true
      · cases out with
        | error e => right; simp [stopService, h1, hf, h2, setStatus]
        | ok _ =>
          by_cases h3 : sid ∈ m.attached
          · left; simp [stopService, h1, hf, h2, h3, setStatus]
          · right; simp [stopService, h1, hf, h2, h3, setStatus]
      · right; simp [stopService, h1, hf, h2]
  · right; simp [stopService, h1]

theorem startService_attached_mono (m : ManagerState) (sid : String)
    (out : Except String Unit) (x : String) (hx : x ∈ m.attached) :
    x ∈ (startService m sid out).1.attached := by
  by_cases h1 : managesService m sid = true
  · cases hf : findService m sid with
    | none => simpa [startService, h1, hf] using hx
    | some s =>
      by_cases h2 : isStopped s.status = true
      · by_cases h3 : sid ∈ m.backgroundTasks
        · simpa [startService, h1, hf, h2, h3] using hx
        · by_cases h4 : sid ∈ m.attached
          · simpa [startService, h1, hf, h2, h3, h4] using hx
          · cases out with
            | error e =>
                simp [startService, h1, hf, h2, h3, h4, setStatus]
                exact Or.inr hx
            | ok _ =>
                by_cases h5 : s.hasTask = true <;>
                  · simp [startService, h1, hf, h2, h3, h4, h5, setStatus]
                    exact Or.inr hx
      · simpa [startService, h1, hf, h2] using hx
  · simpa [startService, h1] using hx

/-- C10: when start_service on a managed Stopped service (with no stale
background-task entry and no prior attachment) fails in init_service — the
service's own start returned an error or timed out, folded into the text
e — the call returns FailedToStartService, the status becomes
FailedToStart(e), and the service's status event, attached to the
supervisor's aggregate repeater earlier in the same call, remains attached:
the failing path performs no detach or rollback.  Moreover stop_service
leaves the attachment table unchanged on every failing path — detach
happens only in a successful stop — and start_service never removes an
attachment. -/
theorem c10_failed_start_keeps_attachment (m : ManagerState) (sid : String)
    (s : ServiceState) (hfind : findService m sid = some s)
    (hstopped : s.status = .stopped)
    (htask : m.backgroundTasks.contains sid = false)
    (hatt : m.attached.contains sid = false)
    (e : String) :
    ((startService m sid (.error e)).2 = .error (.failedToStartService sid)
      ∧ getStatus (startService m sid (.error e)).1 sid
          = some (.failedToStart e)
      ∧ (startService m sid (.error e)).1.attached.contains sid = true)
    ∧ (∀ m2 sid2 out2, (stopService m2 sid2 out2).2 = .ok ()
        ∨ (stopService m2 sid2 out2).1.attached = m2.attached)
    ∧ (∀ m2 sid2 out2 x, x ∈ m2.attached
        → x ∈ (startService m2 sid2 out2).1.attached) := by
  have hman := manages_of_find m sid s hfind
  have hns : isStopped s.status = true := (isStopped_iff s.status).mpr hstopped
  have htask2 : sid ∉ m.backgroundTasks := by simpa using htask
  have hatt2 : sid ∉ m.attached := by simpa using hatt
  have hred : startService m sid (.error e)
      = (setStatus (setStatus { m with attached := sid :: m.attached }
            sid .starting) sid (.failedToStart e),
         .error (.failedToStartService sid)) := by
    simp [startService, hman, hfind, hns, htask2, hatt2]
  refine ⟨⟨?_, ?_, ?_⟩, fun m2 sid2 out2 => stopService_attached m2 sid2 out2,
    fun m2 sid2 out2 x hx => startService_attached_mono m2 sid2 out2 x hx⟩
  · rw [hred]
  · rw [hred]
    have hfind2 : findService { m with attached := sid :: m.attached } sid
        = some s := hfind
    have hfind3 := findService_setStatus_self _ sid Status.starting s hfind2
    rw [hstopped] at hfind3
    have hfind4 := getStatus_setStatus_self _ sid (Status.failedToStart e) _ hfind3
    rw [hfind4]
    rfl
  · rw [hred]
    simp [setStatus]

/-- C10 witness: the theorem applied to a one-service manager whose start
fails with error text "fail". -/
theorem c10_failed_start_keeps_attachment_witness :
    (startService (buildManager [⟨"s", "S", .essential, .stopped, false, "T"⟩])
        "s" (.error "fail")).1.attached.contains "s" = true :=
  ((c10_failed_start_keeps_attachment
      (buildManager [⟨"s", "S", .essential, .stopped, false, "T"⟩]) "s"
      ⟨"s", "S", .essential, .stopped, false, "T"⟩
      rfl rfl rfl rfl "fail").1).2.2

theorem setStatus_backgroundTasks (m : ManagerState) (sid : String) (st : Status) :
    (setStatus m sid st).backgroundTasks = m.backgroundTasks := rfl

theorem setStatus_attached (m : ManagerState) (sid : String) (st : Status) :
    (setStatus m sid st).attached = m.attached := rfl

/-- Background-task-table invariant claimed by the spec: the table contains
an entry for id X iff the registered service with id X currently has status
Started and declares a background task. -/
def taskInv (m : ManagerState) : Prop :=
  ∀ sid : String, sid ∈ m.backgroundTasks
    ↔ ∃ s, findService m sid = some s ∧ s.status = .started ∧ s.hasTask = true

theorem taskInv_startService (m : ManagerState) (sid : String)
    (outS : Except String Unit) (hinv : taskInv m) :
    taskInv (startService m sid outS).1 := by
  by_cases h1 : managesService m sid = true
  case neg => simpa [startService, h1] using hinv
  cases hf : findService m sid with
  | none => simpa [startService, h1, hf] using hinv
  | some s =>
    by_cases h2 : isStopped s.status = true
    case neg => simpa [startService, h1, hf, h2] using hinv
    by_cases h3 : sid ∈ m.backgroundTasks
    case pos => simpa [startService, h1, hf, h2, h3] using hinv
    by_cases h4 : sid ∈ m.attached
    case pos => simpa [startService, h1, hf, h2, h3, h4] using hinv
    have hstopped := (isStopped_iff s.status).mp h2
    have hfind2 : findService { m with attached := sid :: m.attached } sid
        = some s := hf
    have hfind3 := findService_setStatus_self
      { m with attached := sid :: m.attached } sid .starting s hfind2
    rw [hstopped] at hfind3
    simp only [obsSetStatus, statusEq, Bool.false_eq_true, if_false] at hfind3
    cases outS with
    | error e =>
      have hfind4 := findService_setStatus_self _ sid (Status.failedToStart e)
        { s with status := Status.starting } hfind3
      simp only [obsSetStatus, statusEq, Bool.false_eq_true, if_false] at hfind4
      have hred : (startService m sid (.error e)).1
          = setStatus (setStatus { m with attached := sid :: m.attached }
              sid .starting) sid (.failedToStart e) := by
        simp [startService, h1, hf, h2, h3, h4]
      rw [hred]
      unfold taskInv
      intro tid
      by_cases htid : tid = sid
      · subst htid
        constructor
        · intro hmem
          exact absurd hmem h3
        · rintro ⟨s2, hfs, hst, -⟩
          rw [hfind4] at hfs
          simp only [Option.some.injEq] at hfs
          subst hfs
          simp at hst
      · rw [findService_setStatus_ne _ sid tid _ htid,
          findService_setStatus_ne _ sid tid _ htid]
        exact hinv tid
    | ok u =>
      cases u
      have hfind4 := findService_setStatus_self _ sid Status.started
        { s with status := Status.starting } hfind3
      simp only [obsSetStatus, statusEq, Bool.false_eq_true, if_false] at hfind4
      by_cases h5 : s.hasTask = true
      · have hred : (startService m sid (.ok ())).1
            = { setStatus (setStatus { m with attached := sid :: m.attached }
                  sid .starting) sid .started
                with backgroundTasks := sid :: m.backgroundTasks } := by
          simp [startService, h1, hf, h2, h3, h4, h5,
            setStatus_backgroundTasks, setStatus_attached]
        rw [hred]
        unfold taskInv
        intro tid
        by_cases htid : tid = sid
        · subst htid
          constructor
          · intro _
            exact ⟨{ s with status := Status.started }, hfind4, rfl, h5⟩
          · intro _
            exact List.mem_cons_self tid m.backgroundTasks
        · have hz : findService
              { setStatus (setStatus { m with attached := sid :: m.attached }
                  sid .starting) sid .started
                with backgroundTasks := sid :: m.backgroundTasks } tid
              = findService m tid := by
            rw [show findService
                { setStatus (setStatus { m with attached := sid :: m.attached }
                    sid .starting) sid .started
                  with backgroundTasks := sid :: m.backgroundTasks } tid
                = findService (setStatus (setStatus
                    { m with attached := sid :: m.attached }
                    sid .starting) sid .started) tid from rfl,
              findService_setStatus_ne _ sid tid _ htid,
              findService_setStatus_ne _ sid tid _ htid]
            rfl
          rw [hz]
          constructor
          · intro hmem
            rcases List.mem_cons.mp hmem with h | h
            · exact absurd h htid
            · exact (hinv tid).mp h
          · intro hex
            exact List.mem_cons_of_mem _ ((hinv tid).mpr hex)
      · have hred : (startService m sid (.ok ())).1
            = setStatus (setStatus { m with attached := sid :: m.attached }
                sid .starting) sid .started := by
          simp [startService, h1, hf, h2, h3, h4, h5,
            setStatus_backgroundTasks, setStatus_attached]
        rw [hred]
        unfold taskInv
        intro tid
        by_cases htid : tid = sid
        · subst htid
          constructor
          · intro hmem
            exact absurd hmem h3
          · rintro ⟨s2, hfs, -, htk⟩
            rw [hfind4] at hfs
            simp only [Option.some.injEq] at hfs
            subst hfs
            simp only at htk
            exact absurd htk h5
        · rw [findService_setStatus_ne _ sid tid _ htid,
            findService_setStatus_ne _ sid tid _ htid]
          exact hinv tid

theorem mem_stopTasks (tasks : List String) (sid tid : String)
    (hnd : tasks.Nodup) :
    (tid ∈ (if tasks.contains sid then tasks.erase sid else tasks))
      ↔ (tid ∈ tasks ∧ tid ≠ sid) := by
  by_cases hc : tasks.contains sid = true
  · simp only [hc, if_true]
    constructor
    · intro h
      have hne : tid ≠ sid := by
        intro hcc
        subst hcc
        exact hnd.not_mem_erase h
      exact ⟨(List.mem_erase_of_ne hne).mp h, hne⟩
    · rintro ⟨h, hne⟩
      exact (List.mem_erase_of_ne hne).mpr h
  · have hcf : tasks.contains sid = false := by simpa using hc
    have hns : sid ∉ tasks := by simpa using hcf
    simp only [hcf, Bool.false_eq_true, if_false]
    constructor
    · intro h
      refine ⟨h, ?_⟩
      intro hcc
      subst hcc
      exact hns h
    · rintro ⟨h, -⟩
      exact h

theorem taskInv_stopService (m : ManagerState) (sid : String)
    (outT : Except String Unit) (hnd : m.backgroundTasks.Nodup)
    (hinv : taskInv m) :
    taskInv (stopService m sid outT).1 := by
  by_cases h1 : managesService m sid = true
  case neg => simpa [stopService, h1] using hinv
  cases hf : findService m sid with
  | none => simpa [stopService, h1, hf] using hinv
  | some s =>
    by_cases h2 : isStarted s.status = true
    case neg => simpa [stopService, h1, hf, h2] using hinv
    have hstarted := (isStarted_iff s.status).mp h2
    have hfind2 : findService { m with backgroundTasks :=
        (if m.backgroundTasks.contains sid then m.backgroundTasks.erase sid
         else m.backgroundTasks) } sid = some s := hf
    have hfind3 := findService_setStatus_self _ sid Status.stopping s hfind2
    rw [hstarted] at hfind3
    simp only [obsSetStatus, statusEq, Bool.false_eq_true, if_false] at hfind3
    cases outT with
    | error e =>
      have hfind4 := findService_setStatus_self _ sid (Status.failedToStop e)
        { s with status := Status.stopping } hfind3
      simp only [obsSetStatus, statusEq, Bool.false_eq_true, if_false] at hfind4
      have hred : (stopService m sid (.error e)).1
          = setStatus (setStatus { m with backgroundTasks :=
              (if m.backgroundTasks.contains sid then m.backgroundTasks.erase sid
               else m.backgroundTasks) } sid .stopping) sid (.failedToStop e) := by
        simp [stopService, h1, hf, h2]
      rw [hred]
      unfold taskInv
      intro tid
      by_cases htid : tid = sid
      · subst htid
        constructor
        · intro hmem
          have hm2 := (mem_stopTasks m.backgroundTasks tid tid hnd).mp hmem
          exact absurd rfl hm2.2
        · rintro ⟨s2, hfs, hst, -⟩
          rw [hfind4] at hfs
          simp only [Option.some.injEq] at hfs
          subst hfs
          simp at hst
      · rw [findService_setStatus_ne _ sid tid _ htid,
          findService_setStatus_ne _ sid tid _ htid]
        constructor
        · intro hmem
          have hm2 := (mem_stopTasks m.backgroundTasks sid tid hnd).mp hmem
          exact (hinv tid).mp hm2.1
        · intro hex
          exact (mem_stopTasks m.backgroundTasks sid tid hnd).mpr
            ⟨(hinv tid).mpr hex, htid⟩
    | ok u =>
      cases u
      have hfind4 := findService_setStatus_self _ sid Status.stopped
        { s with status := Status.stopping } hfind3
      simp only [obsSetStatus, statusEq, Bool.false_eq_true, if_false] at hfind4
      by_cases h6 : sid ∈ m.attached
      · have hred : (stopService m sid (.ok ())).1
            = { setStatus (setStatus { m with backgroundTasks :=
                  (if m.backgroundTasks.contains sid then m.backgroundTasks.erase sid
                   else m.backgroundTasks) } sid .stopping) sid .stopped
                with attached := m.attached.erase sid } := by
          simp [stopService, h1, hf, h2, h6,
            setStatus_backgroundTasks, setStatus_attached]
        rw [hred]
        unfold taskInv
        intro tid
        have hzz : findService
            { setStatus (setStatus { m with backgroundTasks :=
                (if m.backgroundTasks.contains sid then m.backgroundTasks.erase sid
                 else m.backgroundTasks) } sid .stopping) sid .stopped
              with attached := m.attached.erase sid } tid
            = findService (setStatus (setStatus { m with backgroundTasks :=
                (if m.backgroundTasks.contains sid then m.backgroundTasks.erase sid
                 else m.backgroundTasks) } sid .stopping) sid .stopped) tid := rfl
        by_cases htid : tid = sid
        · subst htid
          constructor
          · intro hmem
            have hm2 := (mem_stopTasks m.backgroundTasks tid tid hnd).mp hmem
            exact absurd rfl hm2.2
          · rintro ⟨s2, hfs, hst, -⟩
            rw [hzz, hfind4] at hfs
            simp only [Option.some.injEq] at hfs
            subst hfs
            simp at hst
        · rw [hzz, findService_setStatus_ne _ sid tid _ htid,
            findService_setStatus_ne _ sid tid _ htid]
          constructor
          · intro hmem
            have hm2 := (mem_stopTasks m.backgroundTasks sid tid hnd).mp hmem
            exact (hinv tid).mp hm2.1
          · intro hex
            exact (mem_stopTasks m.backgroundTasks sid tid hnd).mpr
              ⟨(hinv tid).mpr hex, htid⟩
      · have hred : (stopService m sid (.ok ())).1
            = setStatus (setStatus { m with backgroundTasks :=
                (if m.backgroundTasks.contains sid then m.backgroundTasks.erase sid
                 else m.backgroundTasks) } sid .stopping) sid .stopped := by
          simp [stopService, h1, hf, h2, h6,
            setStatus_backgroundTasks, setStatus_attached]
        rw [hred]
        unfold taskInv
        intro tid
        by_cases htid : tid = sid
        · subst htid
          constructor
          · intro hmem
            have hm2 := (mem_stopTasks m.backgroundTasks tid tid hnd).mp hmem
            exact absurd rfl hm2.2
          · rintro ⟨s2, hfs, hst, -⟩
            rw [hfind4] at hfs
            simp only [Option.some.injEq] at hfs
            subst hfs
            simp at hst
        · rw [findService_setStatus_ne _ sid tid _ htid,
            findService_setStatus_ne _ sid tid _ htid]
          constructor
          · intro hmem
            have hm2 := (mem_stopTasks m.backgroundTasks sid tid hnd).mp hmem
            exact (hinv tid).mp hm2.1
          · intro hex
            exact (mem_stopTasks m.backgroundTasks sid tid hnd).mpr
              ⟨(hinv tid).mpr hex, htid⟩

/-- C6 (amended): the background-task-table invariant — the table contains
an entry keyed by X iff X's current status is Started and X declares a
background task — holds after every start_service and stop_service call
that starts from a state satisfying it (with the table, a HashMap key set,
free of duplicate keys); it does NOT hold after the crash watchdog marks X
as RuntimeError: the watchdog continuation only flips the status and leaves
the table untouched, so X's entry persists although X is no longer
Started. -/
theorem c6_task_table_invariant (m : ManagerState) (sid : String)
    (outS outT r : Except String Unit)
    (hnd : m.backgroundTasks.Nodup) (hinv : taskInv m) :
    taskInv (startService m sid outS).1
    ∧ taskInv (stopService m sid outT).1
    ∧ (watchdogResolve m sid r).backgroundTasks = m.backgroundTasks := by
  refine ⟨taskInv_startService m sid outS hinv,
    taskInv_stopService m sid outT hnd hinv, ?_⟩
  cases r <;> rfl

theorem taskInv_mgr2 : taskInv mgr2 := by
  intro tid
  constructor
  · intro hmem
    have htid : tid = "svc" := by simpa [mgr2] using hmem
    subst htid
    exact ⟨⟨"svc", "Svc", .essential, .started, true, "TSvc"⟩, rfl, rfl, rfl⟩
  · rintro ⟨s2, hfs, -, -⟩
    by_cases htid : tid = "svc"
    · subst htid
      simp [mgr2]
    · exfalso
      have htid2 : ¬ (("svc" : String) = tid) := fun hc => htid hc.symm
      have hnone : findService mgr2 tid = none := by
        simp [findService, mgr2, List.find?_cons, htid2]
      rw [hnone] at hfs
      cases hfs

/-- C6 counterexample: starting from a state that satisfies the claimed
invariant (one Started Essential service with its background task
registered), the crash watchdog fires; the table entry for "svc" persists
while the status has become RuntimeError, so the claimed iff fails. -/
theorem c6_counterexample :
    taskInv mgr2
    ∧ "svc" ∈ (watchdogResolve mgr2 "svc" (.ok ())).backgroundTasks
    ∧ getStatus (watchdogResolve mgr2 "svc" (.ok ())) "svc"
        = some (.runtimeError "Background task ended unexpectedly!")
    ∧ ¬ taskInv (watchdogResolve mgr2 "svc" (.ok ())) := by
  refine ⟨taskInv_mgr2, by decide, by decide, ?_⟩
  intro h
  obtain ⟨s2, hfs, hst, -⟩ := (h "svc").mp (by decide)
  have hsome : findService (watchdogResolve mgr2 "svc" (.ok ())) "svc"
      = some ⟨"svc", "Svc", .essential,
          .runtimeError "Background task ended unexpectedly!", true, "TSvc"⟩ := by
    decide
  rw [hsome] at hfs
  simp only [Option.some.injEq] at hfs
  subst hfs
  simp at hst

/-- C6 witness: the amended theorem applied to the concrete manager mgr2,
which satisfies the invariant and has a duplicate-free table. -/
theorem c6_task_table_invariant_witness :
    taskInv (startService mgr2 "svc" (.ok ())).1
    ∧ (watchdogResolve mgr2 "svc" (.ok ())).backgroundTasks
        = mgr2.backgroundTasks :=
  ⟨(c6_task_table_invariant mgr2 "svc" (.ok ()) (.ok ()) (.ok ())
      (by simp [mgr2]) taskInv_mgr2).1,
   (c6_task_table_invariant mgr2 "svc" (.ok ()) (.ok ()) (.ok ())
      (by simp [mgr2]) taskInv_mgr2).2.2⟩

end Lum
